import Mathlib

/-!
# Verification of `dfixxer-pre-commit` (`src/dfixxer_hook.py`)

A shallow embedding of the pre-commit hook wrapper for the `dfixxer`
Pascal/Delphi formatter, together with theorems settling the spec claims.

The embedding mirrors `src/dfixxer_hook.py`:
* `find_download_asset` — ordered asset-name preference over a release's assets;
* `extract_binary_from_zip` — choice of the archive entry to copy out;
* `download_dfixxer` — cache check, release-metadata fetch, download/extract,
  modelled with an explicit `World` (filesystem + scripted network) and an
  `Outcome` recording the result, the resulting filesystem, the number of
  network calls, the directories created and the console output;
* `get_dfixxer_path`, `run_dfixxer`, `main_hook` — PATH probe, per-file
  invocation and aggregation.

Python `dict.get` accesses are modelled with `Option` fields (`.getD` where the
code supplies a default), and exceptions with `Except String`.
-/

namespace DfixxerHook

/-- `DFIXXER_RELEASE_TAG = "v0.9.2"` (module-level constant, line 15). -/
def DFIXXER_RELEASE_TAG : String := "v0.9.2"

/-- A release asset: `asset.get("name")` and `asset.get("browser_download_url")`
may each be absent, hence `Option`. -/
structure Asset where
  name : Option String
  browser_download_url : Option String
deriving Repr, DecidableEq

/-- Release metadata as consumed by the hook: `release_data.get("assets", [])`
(the key may be missing, hence `Option`), plus the `prerelease`/`draft` flags
the release API exposes (spec §6). -/
structure ReleaseData where
  prerelease : Bool
  draft : Bool
  assets : Option (List Asset)
deriving Repr, DecidableEq

/-- Python `str.endswith(pat)`, computed on the underlying character lists so
that concrete instances evaluate. -/
def endsWith (s pat : String) : Bool :=
  pat.data.isSuffixOf s.data

/-- Python `str.startswith(pat)`, computed on the underlying character lists. -/
def startsWith (s pat : String) : Bool :=
  pat.data.isPrefixOf s.data

/-- ASCII lowercasing of one character (the case folding relevant to the ASCII
names this hook compares). -/
def charLower (c : Char) : Char :=
  if 65 ≤ c.toNat ∧ c.toNat ≤ 90 then Char.ofNat (c.toNat + 32) else c

/-- Python `str.lower()` restricted to ASCII case folding. -/
def strLower (s : String) : String :=
  ⟨s.data.map charLower⟩

/-- `occursAux pat cs`: `pat` is a prefix of some suffix of `cs`. -/
def occursAux (pat : List Char) : List Char → Bool
  | [] => pat.isEmpty
  | c :: rest => pat.isPrefixOf (c :: rest) || occursAux pat rest

/-- Whether `pat` occurs as a contiguous substring of `s`. -/
def occursIn (pat s : String) : Bool :=
  occursAux pat.data s.data

/-- `get_platform_info` (lines 26–38): maps the lowercased host system name to
the supported `(platform, architecture)` pair, failing on anything else. -/
def get_platform_info (system : String) : Except String (String × String) :=
  if system = "windows" then .ok ("windows", "x86_64")
  else if system = "darwin" then .ok ("macos", "x86_64")
  else if system = "linux" then .ok ("linux", "x86_64")
  else .error ("Unsupported platform: " ++ system)

/-- `get_binary_name` (lines 41–46). -/
def get_binary_name (platform_name : String) : String :=
  if platform_name = "windows" then "dfixxer.exe" else "dfixxer"

/-- `base_name = f"dfixxer-{platform_name}-{arch}"` (line 52). -/
def base_name (platform_name arch : String) : String :=
  "dfixxer-" ++ platform_name ++ "-" ++ arch

/-- `binary_asset_names` (lines 54–58). -/
def binary_asset_names (platform_name arch : String) : List String :=
  if platform_name = "windows" then
    [base_name platform_name arch ++ ".exe",
     base_name platform_name arch ++ "-" ++ DFIXXER_RELEASE_TAG ++ ".exe"]
  else
    [base_name platform_name arch,
     base_name platform_name arch ++ "-" ++ DFIXXER_RELEASE_TAG]

/-- `zip_asset_names` (line 60). -/
def zip_asset_names (platform_name arch : String) : List String :=
  [base_name platform_name arch ++ "-" ++ DFIXXER_RELEASE_TAG ++ ".zip",
   base_name platform_name arch ++ ".zip"]

/-- `preferred_names = binary_asset_names + zip_asset_names` (line 62). -/
def preferred_names (platform_name arch : String) : List String :=
  binary_asset_names platform_name arch ++ zip_asset_names platform_name arch

/-- The nested loops of lines 63–66: for each preferred name in order, scan the
assets for the first one whose `name` equals it. -/
def findPreferred (names : List String) (assets : List Asset) :
    Option (Asset × String) :=
  match names with
  | [] => none
  | n :: rest =>
    match assets.find? (fun a => a.name == some n) with
    | some a => some (a, n)
    | none => findPreferred rest assets

/-- `find_download_asset` (lines 49–73): returns
`(browser_download_url, asset name, is_zip)`. -/
def find_download_asset (release_data : ReleaseData)
    (platform_name arch : String) :
    Option String × Option String × Bool :=
  let assets := release_data.assets.getD []
  match findPreferred (preferred_names platform_name arch) assets with
  | some (asset, expected_name) =>
    (asset.browser_download_url, some expected_name,
     endsWith expected_name ".zip")
  | none =>
    match assets.find? (fun a =>
        startsWith (a.name.getD "") (base_name platform_name arch)
        && endsWith (a.name.getD "") ".zip") with
    | some asset => (asset.browser_download_url, some (asset.name.getD ""), true)
    | none => (none, none, false)

/-- An entry of a zip archive; `zipfile`'s `is_dir()` is `filename.endswith("/")`,
recorded here as a field. -/
structure ZipEntry where
  filename : String
  is_dir : Bool
deriving Repr, DecidableEq

/-- `Path(item.filename).name`: the final path component. For the non-directory
zip entries this is applied to (names not ending in `/`), this is the part after
the last `/`. -/
def pathName (s : String) : String :=
  ⟨s.data.foldl (fun acc c => if c = '/' then [] else acc ++ [c]) []⟩

/-- `extract_binary_from_zip` (lines 76–89), over the archive's entry list.
Returns the `filename` of the entry that gets stream-copied to the output path
(`matches[0]`), or the `RuntimeError` message when no entry's base filename
equals `binary_name` case-insensitively. `zip_name` is `zip_path.name`. -/
def extract_binary_from_zip (entries : List ZipEntry)
    (zip_name binary_name : String) : Except String String :=
  let found := entries.filter (fun item =>
    !item.is_dir && (strLower (pathName item.filename) == strLower binary_name))
  match found with
  | [] => .error ("Zip archive " ++ zip_name ++ " does not contain " ++ binary_name)
  | m :: _ => .ok m.filename

/-- The world `download_dfixxer` interacts with: the set of existing files and
the scripted behaviour of the network (the release-metadata fetch of lines
106–107, whether `urlretrieve` succeeds, and the entry list of the archive it
would retrieve). -/
structure World where
  files : List String
  releaseResponse : Except String ReleaseData
  downloadOk : Bool
  zipEntries : List ZipEntry
deriving Repr

/-- Result of one `download_dfixxer` run: the returned path or the
`RuntimeError` message, the resulting filesystem, how many network requests
were issued (`urlopen` / `urlretrieve`), which directories were created
(`mkdir` in `get_cache_dir`), and what was printed. -/
structure Outcome where
  result : Except String String
  files : List String
  netCalls : Nat
  dirsCreated : List String
  printed : List String
deriving Repr

/-- `get_cache_dir` (lines 19–23): `~/.cache/dfixxer-pre-commit/<tag>`;
deterministic in `home` and the pinned release tag. -/
def cache_dir_path (home : String) : String :=
  home ++ "/.cache/dfixxer-pre-commit/" ++ DFIXXER_RELEASE_TAG

/-- `download_dfixxer` (lines 92–130). `get_cache_dir` runs (and creates the
cache directory) first; then the platform lookup; then the cache-hit check
(lines 99–100) returns the binary path with no network traffic; on a miss the
pinned-tag release metadata is fetched, an asset selected, downloaded and — for
archives — extracted, the archive deleted, and the path returned. Every
failure surfaces as an `Except.error` carrying the `RuntimeError` message.
Note line 113's `if not download_url:` also treats an empty-string URL as
missing, hence the `.getD "" = ""` test. -/
def download_dfixxer (home system : String) (w : World) : Outcome :=
  let cdir := cache_dir_path home
  match get_platform_info system with
  | .error e => ⟨.error e, w.files, 0, [cdir], []⟩
  | .ok (platform_name, arch) =>
    let binary_name := get_binary_name platform_name
    let binary_path := cdir ++ "/" ++ binary_name
    if w.files.contains binary_path then
      ⟨.ok binary_path, w.files, 0, [cdir], []⟩
    else
      let printed0 := ["dfixxer not found, downloading..."]
      match w.releaseResponse with
      | .error e =>
        ⟨.error ("Failed to fetch release info for " ++ DFIXXER_RELEASE_TAG
                 ++ ": " ++ e),
         w.files, 1, [cdir], printed0⟩
      | .ok release_data =>
        match find_download_asset release_data platform_name arch with
        | (download_url, asset_name, is_zip) =>
          if download_url.getD "" = "" then
            ⟨.error ("No binary found for " ++ platform_name ++ "-" ++ arch
                     ++ " in release " ++ DFIXXER_RELEASE_TAG),
             w.files, 1, [cdir], printed0⟩
          else
            let printed1 := printed0
              ++ ["Downloading " ++ download_url.getD "" ++ "..."]
            if !w.downloadOk then
              ⟨.error "Failed to download dfixxer: download error",
               w.files, 2, [cdir], printed1⟩
            else if is_zip then
              let archive_path := cdir ++ "/" ++ asset_name.getD ""
              match extract_binary_from_zip w.zipEntries (asset_name.getD "")
                  binary_name with
              | .error e =>
                -- the exception skips `archive_path.unlink`, so the archive stays
                ⟨.error ("Failed to download dfixxer: " ++ e),
                 archive_path :: w.files, 2, [cdir], printed1⟩
              | .ok _ =>
                ⟨.ok binary_path, binary_path :: w.files, 2, [cdir],
                 printed1 ++ ["Downloaded dfixxer to " ++ binary_path]⟩
            else
              ⟨.ok binary_path, binary_path :: w.files, 2, [cdir],
               printed1 ++ ["Downloaded dfixxer to " ++ binary_path]⟩

/-- Outcome of the PATH probe `subprocess.run(["dfixxer", "--version"],
check=True)` of lines 136–141: a zero exit returns normally; a missing binary
raises `FileNotFoundError`; a nonzero exit raises `CalledProcessError`. -/
inductive Probe where
  | success
  | notFound
  | nonzeroExit
deriving Repr, DecidableEq

/-- Whether the probe invocation returned without an exception. -/
def probe_succeeds : Probe → Bool
  | .success => true
  | .notFound => false
  | .nonzeroExit => false

/-- Result of `get_dfixxer_path`: the returned path (or `None`), plus the
effects of the run. -/
structure PathOutcome where
  result : Option String
  files : List String
  netCalls : Nat
  dirsCreated : List String
  printed : List String
deriving Repr

/-- `get_dfixxer_path` (lines 133–152): on a successful probe, return the bare
name `"dfixxer"` untouched by any download machinery; otherwise run
`download_dfixxer`, catching its `RuntimeError` into a printed
`Error: ...` diagnostic and a `none` result. -/
def get_dfixxer_path (probe : Probe) (home system : String) (w : World) :
    PathOutcome :=
  if probe_succeeds probe then
    ⟨some "dfixxer", w.files, 0, [], []⟩
  else
    let o := download_dfixxer home system w
    match o.result with
    | .ok p => ⟨some p, o.files, o.netCalls, o.dirsCreated, o.printed⟩
    | .error e =>
      ⟨none, o.files, o.netCalls, o.dirsCreated, o.printed ++ ["Error: " ++ e]⟩

/-- Outcome of `subprocess.run([dfixxer_path, "update", filename], ...)` in
`run_dfixxer`: either the process ran and produced a return code with captured
output, or launching it raised (e.g. `FileNotFoundError` for a nonexistent
binary path). -/
inductive ExecResult where
  | ran (returncode : Int) (stdout stderr : String)
  | raised (msg : String)
deriving Repr, DecidableEq

/-- `run_dfixxer` (lines 155–180) for one file: resolve the binary (per call),
return 1 when resolution yielded nothing, otherwise run
`<path> update <filename>`; a nonzero return code is surfaced verbatim with
stderr then stdout printed; an exception while running is printed as
`Error running dfixxer: ...` and yields 1. `execf` scripts the subprocess.
Returns the per-file exit code and everything printed. -/
def run_dfixxer (probe : Probe) (home system : String) (w : World)
    (execf : String → String → ExecResult) (filename : String) :
    Int × List String :=
  let po := get_dfixxer_path probe home system w
  match po.result with
  | none => (1, po.printed)
  | some path =>
    match execf path filename with
    | .raised msg => (1, po.printed ++ ["Error running dfixxer: " ++ msg])
    | .ran rc stdout stderr =>
      if rc ≠ 0 then
        (rc, po.printed ++ ["dfixxer failed on " ++ filename ++ ":"]
             ++ (if stderr ≠ "" then [stderr] else [])
             ++ (if stdout ≠ "" then [stdout] else []))
      else
        (0, po.printed)

/-- `main` (lines 183–194), abstracted over the per-file runner: start from
`retval = 0`, run every filename in order, set `retval = 1` on any nonzero
per-file result, and return `retval`. The second component logs each filename
as it is processed, witnessing that no file is skipped. -/
def main_hook (runOne : String → Int) (filenames : List String) :
    Int × List String :=
  filenames.foldl
    (fun acc filename =>
      ((if runOne filename ≠ 0 then 1 else acc.1), acc.2 ++ [filename]))
    (0, [])

/-- Modelled from the spec: the latest-release fallback of spec §4.1 step 3 —
"the 'latest' release with a fallback that walks a releases list to find the
first non-draft, non-prerelease entry when 'latest' itself is a
draft/prerelease". This code is absent from `src/dfixxer_hook.py`, which pins
`DFIXXER_RELEASE_TAG` and only fetches that tag; the definition follows the
spec's words, failing with a `NoMatchingAssetError`-equivalent when no
non-draft, non-prerelease entry exists. -/
def resolve_target_release (latest : ReleaseData)
    (releases : List ReleaseData) : Except String ReleaseData :=
  if latest.prerelease || latest.draft then
    match releases.find? (fun r => !r.prerelease && !r.draft) with
    | some r => .ok r
    | none => .error "NoMatchingAssetError: no non-draft, non-prerelease release"
  else
    .ok latest

/-- The (platform, architecture) pairs `get_platform_info` can produce. -/
def supported_targets : List (String × String) :=
  [("windows", "x86_64"), ("macos", "x86_64"), ("linux", "x86_64")]

/-- Rule (a) of the spec's ordered preference: the exact architecture-qualified
binary name for the platform. -/
def exact_binary_asset_name (platform_name arch : String) : String :=
  if platform_name = "windows" then base_name platform_name arch ++ ".exe"
  else base_name platform_name arch

/-- Rule (b) of the spec's ordered preference: the same name suffixed with the
release tag (for Windows the tag sits before the `.exe` extension). -/
def tag_suffixed_binary_asset_name (platform_name arch : String) : String :=
  if platform_name = "windows" then
    base_name platform_name arch ++ "-" ++ DFIXXER_RELEASE_TAG ++ ".exe"
  else base_name platform_name arch ++ "-" ++ DFIXXER_RELEASE_TAG

/-- Asset selection written directly from the spec's words (§4.1 step 4): try
rules (a)–(e) in order, the first matching rule wins, archives are exactly the
rules marked `.zip`. Used as the specification side of the refinement claim
about `find_download_asset`. -/
def spec_select (rd : ReleaseData) (platform_name arch : String) :
    Option String × Option String × Bool :=
  let assets := rd.assets.getD []
  match assets.find? (fun x =>
      x.name == some (exact_binary_asset_name platform_name arch)) with
  | some x =>
    (x.browser_download_url, some (exact_binary_asset_name platform_name arch),
     false)
  | none =>
    match assets.find? (fun x =>
        x.name == some (tag_suffixed_binary_asset_name platform_name arch)) with
    | some x =>
      (x.browser_download_url,
       some (tag_suffixed_binary_asset_name platform_name arch), false)
    | none =>
      match assets.find? (fun x => x.name == some
          (base_name platform_name arch ++ "-" ++ DFIXXER_RELEASE_TAG ++ ".zip")) with
      | some x =>
        (x.browser_download_url,
         some (base_name platform_name arch ++ "-" ++ DFIXXER_RELEASE_TAG ++ ".zip"),
         true)
      | none =>
        match assets.find? (fun x =>
            x.name == some (base_name platform_name arch ++ ".zip")) with
        | some x =>
          (x.browser_download_url,
           some (base_name platform_name arch ++ ".zip"), true)
        | none =>
          match assets.find? (fun x =>
              startsWith (x.name.getD "") (base_name platform_name arch)
              && endsWith (x.name.getD "") ".zip") with
          | some x => (x.browser_download_url, some (x.name.getD ""), true)
          | none => (none, none, false)

/-- Whether any of the selection rules of `find_download_asset` matches some
asset: a preferred name carried by some asset, or a fallback
`base_name*…*.zip` asset. -/
def any_rule_matches (rd : ReleaseData) (platform_name arch : String) : Bool :=
  let assets := rd.assets.getD []
  (preferred_names platform_name arch).any
      (fun n => assets.any (fun x => x.name == some n))
  || assets.any (fun x =>
      startsWith (x.name.getD "") (base_name platform_name arch)
      && endsWith (x.name.getD "") ".zip")

/-- If no preferred name is carried by any asset, the preferred-name loop finds
nothing. -/
lemma findPreferred_eq_none (names : List String) (assets : List Asset)
    (h : names.any (fun n => assets.any (fun x => x.name == some n)) = false) :
    findPreferred names assets = none := by
  induction names with
  | nil => rfl
  | cons n rest ih =>
    simp only [List.any_cons, Bool.or_eq_false_iff] at h
    have hfind : assets.find? (fun x => x.name == some n) = none := by
      rw [List.find?_eq_none]
      intro x hx
      have := (List.any_eq_false).mp h.1 x hx
      simpa using this
    simp only [findPreferred, hfind]
    exact ih h.2

/-- Unfolding `find_download_asset` to the nested rule-by-rule chain of
`spec_select`, given that the preferred-name list is rules (a)–(d) and given
which of those names count as archives. -/
lemma find_download_asset_eq_spec_select (rd : ReleaseData) (p a : String)
    (hnames : preferred_names p a =
      [exact_binary_asset_name p a, tag_suffixed_binary_asset_name p a,
       base_name p a ++ "-" ++ DFIXXER_RELEASE_TAG ++ ".zip",
       base_name p a ++ ".zip"])
    (h1 : endsWith (exact_binary_asset_name p a) ".zip" = false)
    (h2 : endsWith (tag_suffixed_binary_asset_name p a) ".zip" = false)
    (h3 : endsWith (base_name p a ++ "-" ++ DFIXXER_RELEASE_TAG ++ ".zip") ".zip"
      = true)
    (h4 : endsWith (base_name p a ++ ".zip") ".zip" = true) :
    find_download_asset rd p a = spec_select rd p a := by
  unfold find_download_asset spec_select
  rw [hnames]
  simp only [findPreferred]
  cases hA : (rd.assets.getD []).find?
      (fun x => x.name == some (exact_binary_asset_name p a)) with
  | some x => simp [h1]
  | none =>
    cases hB : (rd.assets.getD []).find?
        (fun x => x.name == some (tag_suffixed_binary_asset_name p a)) with
    | some x => simp [h2]
    | none =>
      cases hC : (rd.assets.getD []).find? (fun x => x.name == some
          (base_name p a ++ "-" ++ DFIXXER_RELEASE_TAG ++ ".zip")) with
      | some x => simp [h3]
      | none =>
        cases hD : (rd.assets.getD []).find?
            (fun x => x.name == some (base_name p a ++ ".zip")) with
        | some x => simp [h4]
        | none => rfl

/-- The invocation loop of `main`, started from an arbitrary accumulator:
the final flag is the initial one unless some file fails, and every file is
appended to the processing log. -/
lemma main_hook_foldl (runOne : String → Int) (filenames : List String)
    (r : Int) (log : List String) :
    filenames.foldl
      (fun acc filename =>
        ((if runOne filename ≠ 0 then 1 else acc.1), acc.2 ++ [filename]))
      (r, log) =
    ((if ∀ f ∈ filenames, runOne f = 0 then r else 1), log ++ filenames) := by
  induction filenames generalizing r log with
  | nil => simp
  | cons f rest ih =>
    simp only [List.foldl_cons, ih]
    by_cases hf : runOne f = 0 <;> by_cases hrest : ∀ x ∈ rest, runOne x = 0 <;>
      simp [hf, hrest, List.forall_mem_cons]

/-- `List.find?` returns the first element satisfying the predicate: it
satisfies it, and every element before it fails it. -/
lemma find?_eq_some_first {α : Type} (p : α → Bool) (l : List α) (x : α)
    (h : l.find? p = some x) :
    p x = true ∧ ∃ pre suf, l = pre ++ x :: suf ∧ ∀ y ∈ pre, p y = false := by
  induction l with
  | nil => simp at h
  | cons a rest ih =>
    by_cases ha : p a
    · rw [List.find?_cons_of_pos _ ha] at h
      obtain rfl : a = x := by simpa using h
      exact ⟨ha, [], rest, rfl, by simp⟩
    · rw [List.find?_cons_of_neg _ ha] at h
      obtain ⟨hx, pre, suf, rfl, hpre⟩ := ih h
      refine ⟨hx, a :: pre, suf, rfl, ?_⟩
      intro y hy
      rcases List.mem_cons.mp hy with rfl | hy
      · simpa using ha
      · exact hpre y hy

/-! ## Claim theorems -/

/-- C1: for every release asset list and every supported (platform,
architecture) pair, `find_download_asset` is the ordered-preference selection
`spec_select` (rules (a)–(e), first match wins), and whenever an asset with the
exact architecture-qualified binary name is present, the selection is not an
archive (`is_zip = false`). -/
theorem c1_asset_selection_follows_ordered_preference (rd : ReleaseData)
    (p a : String) (h : (p, a) ∈ supported_targets) :
    find_download_asset rd p a = spec_select rd p a ∧
    ((∃ x ∈ rd.assets.getD [], x.name = some (exact_binary_asset_name p a)) →
      (find_download_asset rd p a).2.2 = false) := by
  have hsel : find_download_asset rd p a = spec_select rd p a := by
    simp only [supported_targets, List.mem_cons, List.not_mem_nil, or_false,
      Prod.mk.injEq] at h
    rcases h with ⟨rfl, rfl⟩ | ⟨rfl, rfl⟩ | ⟨rfl, rfl⟩ <;>
      exact find_download_asset_eq_spec_select rd _ _ (by decide) (by decide)
        (by decide) (by decide) (by decide)
  refine ⟨hsel, fun hex => ?_⟩
  obtain ⟨x, hx, hname⟩ := hex
  have hsome : ((rd.assets.getD []).find?
      (fun y => y.name == some (exact_binary_asset_name p a))).isSome := by
    rw [List.find?_isSome]
    exact ⟨x, hx, by simp [hname]⟩
  obtain ⟨y, hy⟩ := Option.isSome_iff_exists.mp hsome
  rw [hsel]
  simp only [spec_select, hy]

/-- Witness for C1 at a concrete input: a release carrying both an archive and
the exact linux binary name; the exact binary is selected, not the archive. -/
theorem c1_asset_selection_follows_ordered_preference_witness :
    (("linux", "x86_64") ∈ supported_targets) ∧
    (find_download_asset
        ⟨false, false, some
          [⟨some "dfixxer-linux-x86_64.zip", some "urlZip"⟩,
           ⟨some "dfixxer-linux-x86_64", some "urlBin"⟩]⟩ "linux" "x86_64" =
      spec_select
        ⟨false, false, some
          [⟨some "dfixxer-linux-x86_64.zip", some "urlZip"⟩,
           ⟨some "dfixxer-linux-x86_64", some "urlBin"⟩]⟩ "linux" "x86_64" ∧
     ((∃ x ∈ (ReleaseData.mk false false (some
          [⟨some "dfixxer-linux-x86_64.zip", some "urlZip"⟩,
           ⟨some "dfixxer-linux-x86_64", some "urlBin"⟩])).assets.getD [],
        x.name = some (exact_binary_asset_name "linux" "x86_64")) →
      (find_download_asset
        ⟨false, false, some
          [⟨some "dfixxer-linux-x86_64.zip", some "urlZip"⟩,
           ⟨some "dfixxer-linux-x86_64", some "urlBin"⟩]⟩ "linux" "x86_64").2.2
        = false)) :=
  ⟨by decide,
   c1_asset_selection_follows_ordered_preference _ "linux" "x86_64" (by decide)⟩

/-- C9: `find_download_asset` is total — it is defined for every release
dictionary, including one with no `assets` key (`assets = none`) or with asset
entries lacking `name`/`browser_download_url` fields — and when no selection
rule matches any asset it returns `(none, none, false)`. -/
theorem c9_find_download_asset_total (rd : ReleaseData) (p a : String)
    (h : any_rule_matches rd p a = false) :
    find_download_asset rd p a = (none, none, false) := by
  simp only [any_rule_matches, Bool.or_eq_false_iff] at h
  have hfallback : (rd.assets.getD []).find? (fun x =>
      startsWith (x.name.getD "") (base_name p a)
      && endsWith (x.name.getD "") ".zip") = none := by
    rw [List.find?_eq_none]
    intro x hx
    simpa using List.any_eq_false.mp h.2 x hx
  simp only [find_download_asset, findPreferred_eq_none _ _ h.1, hfallback]

/-- Witness for C9 at an asset list with a field-free entry and an unrelated
entry: no rule matches and the result is `(none, none, false)`; a second
application covers the missing-`assets`-key dictionary. -/
theorem c9_find_download_asset_total_witness :
    any_rule_matches
        ⟨false, false, some [⟨none, none⟩, ⟨some "README.md", some "u"⟩]⟩
        "linux" "x86_64" = false ∧
    find_download_asset
        ⟨false, false, some [⟨none, none⟩, ⟨some "README.md", some "u"⟩]⟩
        "linux" "x86_64" = (none, none, false) ∧
    find_download_asset ⟨false, false, none⟩ "windows" "x86_64"
      = (none, none, false) :=
  ⟨by decide,
   c9_find_download_asset_total _ "linux" "x86_64" (by decide),
   c9_find_download_asset_total ⟨false, false, none⟩ "windows" "x86_64"
     (by decide)⟩

/-- C2: the hook processes every file unconditionally (the processing log is
the whole input list, with no short-circuit after a failure), the aggregate
exit code is 0 iff every per-file invocation returned 0, and on
`["a.pas", "b.pas"]` with `a.pas` failing (exit 1) and `b.pas` succeeding the
aggregate is 1 and `b.pas` is still attempted. -/
theorem c2_main_processes_all_files (runOne : String → Int)
    (filenames : List String) :
    ((main_hook runOne filenames).1 = 0 ↔ ∀ f ∈ filenames, runOne f = 0) ∧
    (main_hook runOne filenames).2 = filenames ∧
    (∀ g : String → Int, g "a.pas" = 1 → g "b.pas" = 0 →
      main_hook g ["a.pas", "b.pas"] = (1, ["a.pas", "b.pas"])) := by
  refine ⟨?_, ?_, ?_⟩
  · rw [main_hook, main_hook_foldl]
    by_cases h : ∀ f ∈ filenames, runOne f = 0 <;> simp [h]
  · rw [main_hook, main_hook_foldl]
    simp
  · intro g h1 h2
    simp [main_hook, List.foldl, h1, h2]

/-- Witness for C2: the concrete two-file run with `a.pas` failing. -/
theorem c2_main_processes_all_files_witness :
    main_hook (fun f => if f = "a.pas" then 1 else 0) ["a.pas", "b.pas"]
      = (1, ["a.pas", "b.pas"]) :=
  (c2_main_processes_all_files (fun f => if f = "a.pas" then 1 else 0)
      ["a.pas", "b.pas"]).2.2
    (fun f => if f = "a.pas" then 1 else 0) (by decide) (by decide)

/-- C10: invoking the hook with an empty filename list yields exit code 0 with
an empty processing log — no per-file invocation (and hence no binary
resolution or subprocess, both of which happen inside the per-file runner)
takes place. -/
theorem c10_empty_file_list_vacuous_success (runOne : String → Int) :
    main_hook runOne [] = (0, []) :=
  rfl

/-- C6: when the PATH probe succeeds, `get_dfixxer_path` returns the bare name
`"dfixxer"`, performs no network call, creates no directory (in particular no
cache directory), leaves the filesystem untouched and prints nothing. -/
theorem c6_probe_success_short_circuits_cache (probe : Probe)
    (home system : String) (w : World) (h : probe_succeeds probe = true) :
    get_dfixxer_path probe home system w
      = ⟨some "dfixxer", w.files, 0, [], []⟩ := by
  simp [get_dfixxer_path, h]

/-- Witness for C6 at a world whose network would fail: the probe short-circuit
never reaches it. -/
theorem c6_probe_success_short_circuits_cache_witness :
    probe_succeeds .success = true ∧
    get_dfixxer_path .success "/h" "linux" ⟨[], .error "offline", false, []⟩
      = ⟨some "dfixxer", [], 0, [], []⟩ :=
  ⟨by decide,
   c6_probe_success_short_circuits_cache .success "/h" "linux"
     ⟨[], .error "offline", false, []⟩ (by decide)⟩

/-- C4: when the binary already exists at the cache path determined by the
pinned release tag and the platform, `download_dfixxer` returns that path with
zero network calls and an unchanged filesystem, and a second call on the
resulting state returns the very same path again. The cache path itself is the
fixed function `cache_dir_path home ++ "/" ++ get_binary_name p` of
(release tag, platform, architecture), so resolution is deterministic. -/
theorem c4_cache_hit_idempotent_no_network (home system p a : String)
    (w : World) (hplat : get_platform_info system = .ok (p, a))
    (hcache : cache_dir_path home ++ "/" ++ get_binary_name p ∈ w.files) :
    download_dfixxer home system w
      = ⟨.ok (cache_dir_path home ++ "/" ++ get_binary_name p), w.files, 0,
         [cache_dir_path home], []⟩ ∧
    download_dfixxer home system
        ⟨(download_dfixxer home system w).files, w.releaseResponse,
         w.downloadOk, w.zipEntries⟩
      = ⟨.ok (cache_dir_path home ++ "/" ++ get_binary_name p), w.files, 0,
         [cache_dir_path home], []⟩ := by
  have h1 : download_dfixxer home system w
      = ⟨.ok (cache_dir_path home ++ "/" ++ get_binary_name p), w.files, 0,
         [cache_dir_path home], []⟩ := by
    unfold download_dfixxer
    rw [hplat]
    simp [List.contains, hcache]
  refine ⟨h1, ?_⟩
  rw [h1]
  exact h1

/-- A world whose cache already holds the linux binary and whose network is
down. -/
def cachedWorld : World :=
  ⟨["/h/.cache/dfixxer-pre-commit/v0.9.2/dfixxer"], .error "offline", false, []⟩

/-- Witness for C4: a populated cache with the network unreachable still
resolves, twice, to the same cached path without any network call. -/
theorem c4_cache_hit_idempotent_no_network_witness :
    get_platform_info "linux" = .ok ("linux", "x86_64") ∧
    cache_dir_path "/h" ++ "/" ++ get_binary_name "linux" ∈ cachedWorld.files ∧
    (download_dfixxer "/h" "linux" cachedWorld
        = ⟨.ok (cache_dir_path "/h" ++ "/" ++ get_binary_name "linux"),
           cachedWorld.files, 0, [cache_dir_path "/h"], []⟩ ∧
     download_dfixxer "/h" "linux"
        ⟨(download_dfixxer "/h" "linux" cachedWorld).files,
         cachedWorld.releaseResponse, cachedWorld.downloadOk,
         cachedWorld.zipEntries⟩
        = ⟨.ok (cache_dir_path "/h" ++ "/" ++ get_binary_name "linux"),
           cachedWorld.files, 0, [cache_dir_path "/h"], []⟩) :=
  ⟨rfl, by decide,
   c4_cache_hit_idempotent_no_network "/h" "linux" "linux" "x86_64"
     cachedWorld rfl (by decide)⟩

/-- C5: a release whose assets are exactly
`["dfixxer-linux-x86_64-v0.9.2.zip"]` is selected on linux/x86_64 as a zip
(whatever its download URL); extraction succeeds exactly on an entry whose base
filename equals `dfixxer` case-insensitively; when no such entry exists it
fails with the `does not contain` error; and the full pipeline copies the
matched entry to the final cache path (or, with no matching entry, fails and
leaves the archive behind). -/
theorem c5_single_zip_asset_resolution :
    (∀ url, find_download_asset
        ⟨false, false, some [⟨some "dfixxer-linux-x86_64-v0.9.2.zip", url⟩]⟩
        "linux" "x86_64"
      = (url, some "dfixxer-linux-x86_64-v0.9.2.zip", true)) ∧
    (∀ entries zn out, extract_binary_from_zip entries zn "dfixxer" = .ok out →
      ∃ item ∈ entries, item.is_dir = false ∧
        strLower (pathName item.filename) = strLower "dfixxer" ∧
        out = item.filename) ∧
    (∀ entries zn,
      (∀ item ∈ entries, item.is_dir = true ∨
        strLower (pathName item.filename) ≠ strLower "dfixxer") →
      extract_binary_from_zip entries zn "dfixxer"
        = .error ("Zip archive " ++ zn ++ " does not contain " ++ "dfixxer")) ∧
    download_dfixxer "/h" "linux"
        ⟨[], .ok ⟨false, false, some
          [⟨some "dfixxer-linux-x86_64-v0.9.2.zip", some "u"⟩]⟩, true,
         [⟨"sub/DFixxer", false⟩]⟩
      = ⟨.ok "/h/.cache/dfixxer-pre-commit/v0.9.2/dfixxer",
         ["/h/.cache/dfixxer-pre-commit/v0.9.2/dfixxer"], 2,
         ["/h/.cache/dfixxer-pre-commit/v0.9.2"],
         ["dfixxer not found, downloading...", "Downloading u...",
          "Downloaded dfixxer to /h/.cache/dfixxer-pre-commit/v0.9.2/dfixxer"]⟩ ∧
    download_dfixxer "/h" "linux"
        ⟨[], .ok ⟨false, false, some
          [⟨some "dfixxer-linux-x86_64-v0.9.2.zip", some "u"⟩]⟩, true,
         [⟨"readme.txt", false⟩]⟩
      = ⟨.error ("Failed to download dfixxer: Zip archive " ++
           "dfixxer-linux-x86_64-v0.9.2.zip does not contain dfixxer"),
         ["/h/.cache/dfixxer-pre-commit/v0.9.2/dfixxer-linux-x86_64-v0.9.2.zip"],
         2, ["/h/.cache/dfixxer-pre-commit/v0.9.2"],
         ["dfixxer not found, downloading...", "Downloading u..."]⟩ := by
  refine ⟨fun url => rfl, ?_, ?_, rfl, rfl⟩
  · intro entries zn out h
    simp only [extract_binary_from_zip] at h
    cases hf : entries.filter (fun item =>
        !item.is_dir && (strLower (pathName item.filename)
          == strLower "dfixxer")) with
    | nil => rw [hf] at h; simp at h
    | cons m rest =>
      rw [hf] at h
      simp only [Except.ok.injEq] at h
      have hm : m ∈ entries.filter (fun item =>
          !item.is_dir && (strLower (pathName item.filename)
            == strLower "dfixxer")) := by
        rw [hf]; exact List.mem_cons_self m rest
      obtain ⟨hmem, hpred⟩ := List.mem_filter.mp hm
      rw [Bool.and_eq_true, Bool.not_eq_true', beq_iff_eq] at hpred
      exact ⟨m, hmem, hpred.1, hpred.2, h.symm⟩
  · intro entries zn hall
    have hnil : entries.filter (fun item =>
        !item.is_dir && (strLower (pathName item.filename)
          == strLower "dfixxer")) = [] := by
      rw [List.filter_eq_nil_iff]
      intro item hi
      rcases hall item hi with hd | hne
      · simp [hd]
      · simp [hne]
    simp only [extract_binary_from_zip, hnil]

/-- Witness for C5: an archive holding only `Sub/dFiXXer` extracts that entry
(case-insensitively); an archive with no such entry is rejected. -/
theorem c5_single_zip_asset_resolution_witness :
    find_download_asset
        ⟨false, false, some [⟨some "dfixxer-linux-x86_64-v0.9.2.zip", some "u"⟩]⟩
        "linux" "x86_64"
      = (some "u", some "dfixxer-linux-x86_64-v0.9.2.zip", true) ∧
    (∃ item ∈ ([⟨"Sub/dFiXXer", false⟩] : List ZipEntry),
      item.is_dir = false ∧
      strLower (pathName item.filename) = strLower "dfixxer" ∧
      "Sub/dFiXXer" = item.filename) ∧
    extract_binary_from_zip [⟨"doc/readme.txt", false⟩] "z.zip" "dfixxer"
      = .error ("Zip archive " ++ "z.zip" ++ " does not contain "
          ++ "dfixxer") :=
  ⟨c5_single_zip_asset_resolution.1 (some "u"),
   c5_single_zip_asset_resolution.2.1 [⟨"Sub/dFiXXer", false⟩] "z.zip"
     "Sub/dFiXXer" rfl,
   c5_single_zip_asset_resolution.2.2.1 [⟨"doc/readme.txt", false⟩] "z.zip"
     (by decide)⟩

/-- C7: whenever resolution fails (unsupported platform, metadata fetch
failure, no matching asset, missing archive entry — every failure surfaces as
the `.error` result of `download_dfixxer`), the per-file run catches it, prints
the `Error: ...` diagnostic, and yields the nonzero result 1 instead of
propagating; and `main` still processes every remaining file (its log is always
the full input list). -/
theorem c7_resolution_failure_caught_run_continues (probe : Probe)
    (home system : String) (w : World) (e : String)
    (execf : String → String → ExecResult) (filename : String)
    (hp : probe_succeeds probe = false)
    (he : (download_dfixxer home system w).result = .error e) :
    run_dfixxer probe home system w execf filename
      = (1, (download_dfixxer home system w).printed ++ ["Error: " ++ e]) ∧
    (∀ runOne : String → Int, ∀ fns : List String,
      (main_hook runOne fns).2 = fns) := by
  constructor
  · simp [run_dfixxer, get_dfixxer_path, hp, he]
  · intro runOne fns
    rw [main_hook, main_hook_foldl]
    simp

/-- Witness for C7: an unsupported platform (`sunos`) is caught and converted
into exit code 1 with a printed diagnostic. -/
theorem c7_resolution_failure_caught_run_continues_witness :
    probe_succeeds .notFound = false ∧
    (download_dfixxer "/h" "sunos" ⟨[], .error "net", false, []⟩).result
      = .error "Unsupported platform: sunos" ∧
    (run_dfixxer .notFound "/h" "sunos" ⟨[], .error "net", false, []⟩
        (fun _ _ => .ran 0 "" "") "a.pas"
      = (1, (download_dfixxer "/h" "sunos" ⟨[], .error "net", false, []⟩).printed
            ++ ["Error: " ++ "Unsupported platform: sunos"]) ∧
    (∀ runOne : String → Int, ∀ fns : List String,
      (main_hook runOne fns).2 = fns)) :=
  ⟨by decide, rfl,
   c7_resolution_failure_caught_run_continues .notFound "/h" "sunos"
     ⟨[], .error "net", false, []⟩ "Unsupported platform: sunos"
     (fun _ _ => .ran 0 "" "") "a.pas" (by decide) rfl⟩

/-- C8 counterexample: when launching the resolved binary raises, the code
prints `Error running dfixxer: <raw message>` — `"not installed"` appears in no
printed diagnostic — while still yielding the nonzero result 1. -/
theorem c8_counterexample_no_not_installed_message :
    run_dfixxer .success "/h" "linux" ⟨[], .error "offline", false, []⟩
        (fun _ _ => .raised "No such file or directory: dfixxer") "a.pas"
      = (1, ["Error running dfixxer: No such file or directory: dfixxer"]) ∧
    ¬ ∃ s ∈ (run_dfixxer .success "/h" "linux" ⟨[], .error "offline", false, []⟩
        (fun _ _ => .raised "No such file or directory: dfixxer") "a.pas").2,
      occursIn "not installed" s = true :=
  ⟨rfl, by decide⟩

/-- C8 as amended: when the resolved binary path cannot be launched (the
subprocess call raises), the per-file invocation reports it with an
`Error running dfixxer: ...` diagnostic — not by propagating the raw error and
not with a "not installed" message — and yields the nonzero result 1. -/
theorem c8_launch_failure_reported_nonzero (probe : Probe)
    (home system : String) (w : World) (execf : String → String → ExecResult)
    (filename path msg : String)
    (hres : (get_dfixxer_path probe home system w).result = some path)
    (hexec : execf path filename = .raised msg) :
    run_dfixxer probe home system w execf filename
      = (1, (get_dfixxer_path probe home system w).printed
            ++ ["Error running dfixxer: " ++ msg]) := by
  simp [run_dfixxer, hres, hexec]

/-- Witness for the amended C8 at a concrete failed launch. -/
theorem c8_launch_failure_reported_nonzero_witness :
    (get_dfixxer_path .success "/h" "linux"
        ⟨[], .error "offline", false, []⟩).result = some "dfixxer" ∧
    (fun (_ _ : String) => ExecResult.raised "launch failed") "dfixxer" "a.pas"
      = .raised "launch failed" ∧
    run_dfixxer .success "/h" "linux" ⟨[], .error "offline", false, []⟩
        (fun _ _ => .raised "launch failed") "a.pas"
      = (1, (get_dfixxer_path .success "/h" "linux"
              ⟨[], .error "offline", false, []⟩).printed
            ++ ["Error running dfixxer: " ++ "launch failed"]) :=
  ⟨rfl, rfl,
   c8_launch_failure_reported_nonzero .success "/h" "linux"
     ⟨[], .error "offline", false, []⟩ (fun _ _ => .raised "launch failed")
     "a.pas" "dfixxer" "launch failed" rfl rfl⟩

/-- C3: on a cache miss, resolution issues at least one network request (the
release-metadata fetch); and — for the spec-modelled latest-release fallback —
when "latest" is itself a draft or prerelease, the walk over the releases list
selects the first entry with both `prerelease = false` and `draft = false`, and
fails with the `NoMatchingAssetError`-equivalent when no such entry exists. -/
theorem c3_cache_miss_fetches_and_latest_fallback (latest : ReleaseData)
    (releases : List ReleaseData) (home system p a : String) (w : World)
    (hlat : latest.prerelease = true ∨ latest.draft = true)
    (hplat : get_platform_info system = .ok (p, a))
    (hmiss : cache_dir_path home ++ "/" ++ get_binary_name p ∉ w.files) :
    1 ≤ (download_dfixxer home system w).netCalls ∧
    (∀ r, releases.find? (fun q => !q.prerelease && !q.draft) = some r →
      resolve_target_release latest releases = .ok r ∧
      r.prerelease = false ∧ r.draft = false ∧
      ∃ pre suf, releases = pre ++ r :: suf ∧
        ∀ q ∈ pre, q.prerelease = true ∨ q.draft = true) ∧
    ((∀ q ∈ releases, q.prerelease = true ∨ q.draft = true) →
      resolve_target_release latest releases
        = .error "NoMatchingAssetError: no non-draft, non-prerelease release") := by
  have hc : w.files.contains
      (cache_dir_path home ++ "/" ++ get_binary_name p) = false := by
    rw [Bool.eq_false_iff]
    intro hcon
    exact hmiss (List.elem_iff.mp hcon)
  refine ⟨?_, ?_, ?_⟩
  · unfold download_dfixxer
    rw [hplat]
    simp only [List.contains] at hc
    simp only [hc, Bool.false_eq_true, if_false]
    cases hw : w.releaseResponse with
    | error e => simp
    | ok rd =>
      rcases hfa : find_download_asset rd p a with ⟨u, n, z⟩
      simp only [hfa]
      split_ifs <;> (try split) <;> simp
  · intro r hr
    obtain ⟨hpr, pre, suf, hsplit, hpre⟩ := find?_eq_some_first _ _ _ hr
    rw [Bool.and_eq_true, Bool.not_eq_true', Bool.not_eq_true'] at hpr
    refine ⟨?_, hpr.1, hpr.2, pre, suf, hsplit, ?_⟩
    · unfold resolve_target_release
      rcases hlat with h | h <;> simp [h, hr]
    · intro q hq
      have hfq := hpre q hq
      by_cases h1 : q.prerelease = true
      · exact Or.inl h1
      · right
        by_contra h2
        rw [Bool.not_eq_true] at h1 h2
        rw [h1, h2] at hfq
        simp at hfq
  · intro hall
    have hnone : releases.find? (fun q => !q.prerelease && !q.draft) = none :=
      List.find?_eq_none.mpr (fun q hq => by
        rcases hall q hq with h | h <;> simp [h])
    unfold resolve_target_release
    rcases hlat with h | h <;> simp [h, hnone]

/-- Witness for C3: a prerelease "latest", a releases list whose first good
entry is second, a cache-missing world. -/
theorem c3_cache_miss_fetches_and_latest_fallback_witness :
    ((⟨true, false, none⟩ : ReleaseData).prerelease = true ∨
      (⟨true, false, none⟩ : ReleaseData).draft = true) ∧
    get_platform_info "linux" = .ok ("linux", "x86_64") ∧
    cache_dir_path "/h" ++ "/" ++ get_binary_name "linux"
      ∉ (⟨[], .error "net", false, []⟩ : World).files ∧
    (1 ≤ (download_dfixxer "/h" "linux" ⟨[], .error "net", false, []⟩).netCalls ∧
    (∀ r, ([⟨true, false, none⟩, ⟨false, false, none⟩] :
          List ReleaseData).find? (fun q => !q.prerelease && !q.draft)
        = some r →
      resolve_target_release ⟨true, false, none⟩
          [⟨true, false, none⟩, ⟨false, false, none⟩] = .ok r ∧
      r.prerelease = false ∧ r.draft = false ∧
      ∃ pre suf, ([⟨true, false, none⟩, ⟨false, false, none⟩] :
          List ReleaseData) = pre ++ r :: suf ∧
        ∀ q ∈ pre, q.prerelease = true ∨ q.draft = true) ∧
    ((∀ q ∈ ([⟨true, false, none⟩, ⟨false, false, none⟩] : List ReleaseData),
        q.prerelease = true ∨ q.draft = true) →
      resolve_target_release ⟨true, false, none⟩
          [⟨true, false, none⟩, ⟨false, false, none⟩]
        = .error "NoMatchingAssetError: no non-draft, non-prerelease release")) :=
  ⟨Or.inl rfl, rfl, by decide,
   c3_cache_miss_fetches_and_latest_fallback ⟨true, false, none⟩
     [⟨true, false, none⟩, ⟨false, false, none⟩] "/h" "linux" "linux" "x86_64"
     ⟨[], .error "net", false, []⟩ (Or.inl rfl) rfl (by decide)⟩

end DfixxerHook
